import Mathlib

/-
  Verification development for the SDM-KMS repository.

  The definitions below are a shallow embedding of the TypeScript source:
    - src/unnamed/part_000  (geminiService: chunkText, getSystemInstruction,
      getFileParts, generateFileHash, processChunk, processDocumentIngestion,
      streamGeminiResponse; and the types module: ProcessedData, LocalFile,
      WikiEntry, WikiNodeData)
    - src/unnamed/part_001  (App: handleWikiAddManualEntry, handleWikiMoveNode,
      handleImportContext)

  JavaScript strings are modelled as `List Char` where character indexing
  matters (the chunker) and as Lean `String` elsewhere.  The float comparison
  `lastNewline > i + chunkSize * 0.8` is modelled exactly over the rationals as
  `5 * lastNewline > 5 * i + 4 * chunkSize`; for integer operands the two
  comparisons agree.  External model calls are an oracle parameter.
-/

namespace SDMKMS

/-- Risk record inside ProcessedData: `{ risk: string; category: string }`
(types module). -/
structure RiskEntry where
  risk : String
  category : String
deriving DecidableEq, Repr

/-- ProcessedData from the types module: the aggregated extraction record of
one document. -/
structure ProcessedData where
  summary : String
  topics : List String
  risks : List RiskEntry
  keyPoints : List String
  entities : List String
deriving DecidableEq, Repr

/-- The empty, structurally complete record returned by every caught-error
branch of processChunk (part_000 lines 151 and 158). -/
def emptyProcessedData : ProcessedData :=
  { summary := "", topics := [], risks := [], keyPoints := [], entities := [] }

/-- The placeholder record produced by the catch-all of
processDocumentIngestion (part_000 lines 198-207).  In this embedding no
modelled computation throws, so the branch is unreachable; the record is kept
for completeness. -/
def ingestionFailurePlaceholder : ProcessedData :=
  { summary := "Analysis failed.", topics := [], risks := [], keyPoints := [], entities := [] }

/-- LocalFile from the types module.  The optional fields are Options; content
is a character list so that the chunker can index into it. -/
structure LocalFile where
  id : String
  name : String
  content : List Char
  type : String
  size : Nat
  timestamp : Nat
  summary : Option String
  processedData : Option ProcessedData
  isProcessing : Option Bool
deriving DecidableEq, Repr

/-- JavaScript `text.lastIndexOf(c, pos)`: the largest index j ≤ pos with
text[j] = c, or none (-1 in JS).  Note the search includes index pos itself. -/
def jsLastIndexOf (s : List Char) (c : Char) : Nat → Option Nat
  | 0 => if s.get? 0 = some c then some 0 else none
  | p + 1 => if s.get? (p + 1) = some c then some (p + 1) else jsLastIndexOf s c p

/-- The 80 percent floor test of chunkText (part_000 lines 24 and 28):
a candidate break index j is accepted when `j > i + chunkSize * 0.8`, written
here over the integers as `5 * j > 5 * i + 4 * csize`.  A missing candidate
(JS -1) is never accepted. -/
def breakAccept (csize i : Nat) : Option Nat → Option Nat
  | some j => if 5 * j > 5 * i + 4 * csize then some j else none
  | none => none

/-- The size-bounded cut point `Math.min(i + chunkSize, text.length)` of
chunkText (part_000 line 20). -/
def hardStop (text : List Char) (csize i : Nat) : Nat :=
  min (i + csize) text.length

/-- One iteration of the chunkText loop body (part_000 lines 20-29): the end
position of the chunk that starts at i.  When the cut point is strictly inside
the text, the nearest newline at index ≤ cut point is tried first, then the
nearest period, each under the 80 percent floor; an accepted break moves the
end to one past the break character. -/
def nextEnd (text : List Char) (csize i : Nat) : Nat :=
  if hardStop text csize i < text.length then
    match breakAccept csize i (jsLastIndexOf text '\n' (hardStop text csize i)) with
    | some ln => ln + 1
    | none =>
      match breakAccept csize i (jsLastIndexOf text '.' (hardStop text csize i)) with
      | some lp => lp + 1
      | none => hardStop text csize i
  else hardStop text csize i

/-- The while loop of chunkText (part_000 lines 19-33), with an explicit fuel
argument to make the recursion structural.  For any positive chunk size every
iteration advances the cursor by at least one character, so fuel text.length
makes the fuel bound immaterial (proved below as part of claim C10). -/
def chunkLoop (text : List Char) (csize : Nat) : Nat → Nat → List (List Char)
  | 0, _ => []
  | fuel + 1, i =>
    if i < text.length then
      (text.drop i).take (nextEnd text csize i - i) ::
        chunkLoop text csize fuel (nextEnd text csize i)
    else []

/-- chunkText (part_000 lines 15-35).  The JS default chunkSize is 50000. -/
def chunkText (text : List Char) (csize : Nat) : List (List Char) :=
  if text.length ≤ csize then [text] else chunkLoop text csize text.length 0

/-- Content part of a model request: plain text or inline binary data
(the Part shape used by part_000). -/
inductive Part where
  | text (s : String)
  | inlineData (mimeType : String) (data : String)
deriving DecidableEq, Repr

/-- One history turn: `{ role, parts }`. -/
structure Content where
  role : String
  parts : List Part
deriving DecidableEq, Repr

/-- generateFileHash (part_000 lines 10-12): the session fingerprint,
name-size pairs joined with a vertical bar. -/
def generateFileHash (files : List LocalFile) : String :=
  String.intercalate "|" (files.map (fun f => f.name ++ "-" ++ toString f.size))

/-- The fixed opening line of every system instruction
(part_000 line 39). -/
def baseInstruction : String :=
  "You are a helpful, intelligent research assistant capable of analyzing documents.\n"

/-- The generic rules appended when no file has processed data
(part_000 lines 49-52); the template literal keeps the 6-space indentation of
its continuation lines. -/
def genericRules : String :=
  "RULES:\n      1. Strictly use the provided file content as your primary source of truth.\n      2. If the answer is not in the files, state that clearly.\n      3. Be concise but thorough."

/-- One line of the knowledge-base summary (part_000 line 45).  In JS a
missing processedData would interpolate the text undefined; the filter in the
caller guarantees presence. -/
def fileSummaryLine (f : LocalFile) : String :=
  "- File: " ++ f.name ++ "\n  Summary: " ++
    (match f.processedData with
     | some pd => pd.summary
     | none => "undefined") ++ "\n"

/-- The summary-based instruction body (part_000 lines 43-47), built from the
files that have processed data. -/
def summaryInstruction (processedFiles : List LocalFile) : String :=
  "Here is a summary of the available knowledge base:\n" ++
    String.join (processedFiles.map fileSummaryLine) ++
    "\nUse this high-level context to answer questions. If specific details are needed, you can refer to the raw file content provided in the history."

/-- getSystemInstruction (part_000 lines 37-56): the summary form is chosen
whenever at least one file has processedData. -/
def getSystemInstruction (files : List LocalFile) : String :=
  if (files.filter (fun f => f.processedData.isSome)).length > 0 then
    baseInstruction ++ summaryInstruction (files.filter (fun f => f.processedData.isSome))
  else
    baseInstruction ++ genericRules

/-- Chat-context truncation of a text file (part_000 line 80). -/
def truncatedContent (content : List Char) : String :=
  if content.length > 200000 then
    String.mk (content.take 200000) ++ "\n...(Truncated for Chat)..."
  else
    String.mk content

/-- The parts pushed for one file by getFileParts (part_000 lines 68-83);
index is the zero-based position of the file in the list. -/
def filePart (index : Nat) (file : LocalFile) : List Part :=
  if file.type = "application/pdf" then
    [Part.text ("\n--- FILE " ++ toString (index + 1) ++ ": " ++ file.name ++ " ---\n"),
     Part.inlineData "application/pdf" (String.mk file.content)]
  else
    [Part.text ("\n--- FILE " ++ toString (index + 1) ++ ": " ++ file.name ++ " ---\n"
        ++ truncatedContent file.content)]

/-- getFileParts (part_000 lines 62-85). -/
def getFileParts (files : List LocalFile) : List Part :=
  if files.length = 0 then []
  else
    Part.text "Here are the uploaded documents you need to analyze:\n" ::
      (files.enum.map (fun p => filePart p.1 p.2)).flatten

/-- The seeded history of a fresh chat session (part_000 lines 273-276). -/
def sessionHistory (files : List LocalFile) : List Content :=
  if (getFileParts files).length > 0 then
    [{ role := "user", parts := getFileParts files },
     { role := "model", parts := [Part.text "I have received the documents and their context."] }]
  else []

/-- A chat session handle.  The id field models JavaScript object identity:
each `ai.chats.create` call yields a fresh reference, modelled by a counter
drawn from the state. -/
structure ChatHandle where
  id : Nat
  history : List Content
  systemInstruction : String
deriving DecidableEq, Repr

/-- The module-level mutable session state of part_000 (lines 7-8), plus the
freshness counter for handles. -/
structure GeminiState where
  chatSession : Option ChatHandle
  currentFileContextHash : String
  nextId : Nat
deriving DecidableEq, Repr

/-- The session-management step of streamGeminiResponse (part_000 lines
266-287): create and seed a new session when none exists or the fingerprint
changed, otherwise reuse the cached one unmodified.  The streaming transport
itself is external and not modelled. -/
def streamGeminiResponse (st : GeminiState) (files : List LocalFile) : GeminiState :=
  if st.chatSession.isNone || (generateFileHash files != st.currentFileContextHash) then
    { chatSession := some { id := st.nextId,
                            history := sessionHistory files,
                            systemInstruction := getSystemInstruction files },
      currentFileContextHash := generateFileHash files,
      nextId := st.nextId + 1 }
  else st

/-- Outcome of one `ai.models.generateContent` call made by processChunk, as
seen by the surrounding control flow: a transport exception, a response with
no text, a response whose text fails JSON parsing, or parsed data. -/
inductive ChunkCallResult where
  | throws
  | noText
  | badJson
  | ok (pd : ProcessedData)
deriving DecidableEq, Repr

/-- processChunk (part_000 lines 109-160): every failure branch degrades to
the empty record; a successful parse is returned as is. -/
def processChunk : ChunkCallResult → ProcessedData
  | ChunkCallResult.throws => emptyProcessedData
  | ChunkCallResult.noText => emptyProcessedData
  | ChunkCallResult.badJson => emptyProcessedData
  | ChunkCallResult.ok pd => pd

/-- First-seen-order deduplication, the meaning of
`Array.from(new Set(xs))` in part_000 lines 184 and 187. -/
def jsSetDedup : List String → List String
  | [] => []
  | x :: xs => x :: (jsSetDedup xs).filter (fun t => t ≠ x)

/-- The summary merge of the aggregation step (part_000 line 183): non-empty
chunk summaries joined with a blank line. -/
def mergeSummaries (results : List ProcessedData) : String :=
  String.intercalate "\n\n" ((results.map (fun r => r.summary)).filter (fun s => s ≠ ""))

/-- The post-merge summary cap (part_000 lines 191-194). -/
def capSummary (s : String) : String :=
  if s.length > 2000 then s.take 2000 ++ "...(Synthesized from multiple sections)" else s

/-- The aggregation of per-chunk results (part_000 lines 182-194): summaries
joined, topics and entities deduplicated as sets, risks and key points
concatenated, then the summary cap applied. -/
def aggregateResults (results : List ProcessedData) : ProcessedData :=
  { summary := capSummary (mergeSummaries results),
    topics := jsSetDedup (results.flatMap (fun r => r.topics)),
    risks := results.flatMap (fun r => r.risks),
    keyPoints := results.flatMap (fun r => r.keyPoints),
    entities := jsSetDedup (results.flatMap (fun r => r.entities)) }

/-- processDocumentIngestion (part_000 lines 162-208).  The oracle gives the
outcome of the n-th model call made while ingesting this document.  PDFs and
texts under 60000 characters are processed in a single call; larger texts are
chunked with the default chunk size 50000 and the per-chunk results
aggregated.  The outer catch-all of the source is unreachable here because
processChunk is total by its own catch branches. -/
def processDocumentIngestion (file : LocalFile) (oracle : Nat → ChunkCallResult) : ProcessedData :=
  if file.type = "application/pdf" ∨ file.content.length < 60000 then
    processChunk (oracle 0)
  else
    aggregateResults ((List.range (chunkText file.content 50000).length).map
      (fun n => processChunk (oracle n)))

/-- WikiEntry from the types module. -/
structure WikiEntry where
  term : String
  definition : String
  relatedContext : String
deriving DecidableEq, Repr

/-- WikiNodeData from the types module.  The optional content and files of the
source are always materialised by the store operations, so they are plain
fields here. -/
structure WikiNodeData where
  entries : List WikiEntry
  content : String
  files : List LocalFile
deriving DecidableEq, Repr

/-- The wiki store: the JS object mapping node name to node data, modelled as
an association list (first match wins; the operations below never create a
duplicate key). -/
abbrev WikiCache := List (String × WikiNodeData)

/-- The empty node `{ entries: [], content: "", files: [] }`. -/
def emptyWikiNode : WikiNodeData :=
  { entries := [], content := "", files := [] }

/-- Key lookup in the store, `prev[k]`. -/
def cacheLookup : WikiCache → String → Option WikiNodeData
  | [], _ => none
  | (k, v) :: rest, key => if k = key then some v else cacheLookup rest key

/-- Key update `{...prev, [k]: v}`: overwrite in place when the key exists,
append otherwise. -/
def cacheSet : WikiCache → String → WikiNodeData → WikiCache
  | [], k, v => [(k, v)]
  | (k0, v0) :: rest, k, v =>
    if k0 = k then (k, v) :: rest else (k0, v0) :: cacheSet rest k v

/-- handleWikiAddManualEntry (part_001 lines 292-315): append a child entry
under parentNode (falling back to ROOT when parentNode is unknown) and ensure
a node record for the term itself.  The source performs no duplicate check. -/
def handleWikiAddManualEntry (prev : WikiCache) (term definition parentNode : String) :
    WikiCache :=
  let targetParent := if (cacheLookup prev parentNode).isSome then parentNode else "ROOT"
  let node := (cacheLookup prev targetParent).getD emptyWikiNode
  let newEntry : WikiEntry :=
    { term := term, definition := definition, relatedContext := "Manually added by user" }
  let newTermNode := (cacheLookup prev term).getD
    { entries := [], content := definition, files := [] }
  cacheSet (cacheSet prev targetParent { node with entries := node.entries ++ [newEntry] })
    term newTermNode

/-- handleWikiMoveNode (part_001 lines 333-356).  currentParent is the top of
the navigation path in the source.  Returns none for the path where the source
would throw (reading .entries of an absent current parent); otherwise returns
the updated store, unchanged when the target parent already lists an entry
with the same term or when the parents coincide. -/
def handleWikiMoveNode (prev : WikiCache) (currentParent term definition newParent : String) :
    Option WikiCache :=
  if currentParent = newParent then some prev
  else
    match cacheLookup prev currentParent with
    | none => none
    | some oldParentNode =>
      let updatedOldEntries := oldParentNode.entries.filter (fun e => e.term ≠ term)
      let newParentNode := (cacheLookup prev newParent).getD emptyWikiNode
      if newParentNode.entries.any (fun e => e.term = term) then some prev
      else
        some (cacheSet
          (cacheSet prev currentParent { oldParentNode with entries := updatedOldEntries })
          newParent
          { newParentNode with
            entries := newParentNode.entries ++
              [{ term := term, definition := definition,
                 relatedContext := "Moved from " ++ currentParent }] })

/-- JSON values, the result of JSON.parse in handleImportContext. -/
inductive JsonVal where
  | null
  | bool (b : Bool)
  | num (n : Int)
  | str (s : String)
  | arr (xs : List JsonVal)
  | obj (fields : List (String × JsonVal))

/-- JavaScript truthiness of a parsed JSON value. -/
def jsTruthy : JsonVal → Bool
  | JsonVal.null => false
  | JsonVal.bool b => b
  | JsonVal.num n => n != 0
  | JsonVal.str s => s != ""
  | JsonVal.arr _ => true
  | JsonVal.obj _ => true

/-- Field lookup inside an object literal (JSON.parse already keeps one value
per key). -/
def lookupField : List (String × JsonVal) → String → Option JsonVal
  | [], _ => none
  | (k, v) :: rest, key => if k = key then some v else lookupField rest key

/-- Property access `parsed.k`: none models the JS undefined obtained on a
non-object or a missing field. -/
def getField : JsonVal → String → Option JsonVal
  | JsonVal.obj fields, key => lookupField fields key
  | _, _ => none

/-- Truthiness of a possibly-undefined property. -/
def jsTruthyOpt : Option JsonVal → Bool
  | some v => jsTruthy v
  | none => false

/-- JavaScript `Array.isArray(x)` on a possibly-undefined property. -/
def isArrayVal : Option JsonVal → Bool
  | some (JsonVal.arr _) => true
  | _ => false

/-- JavaScript `typeof x === "object"` on a possibly-undefined property: true
for objects and arrays and also for null. -/
def typeofIsObject : Option JsonVal → Bool
  | some JsonVal.null => true
  | some (JsonVal.arr _) => true
  | some (JsonVal.obj _) => true
  | _ => false

/-- The application state touched by snapshot import.  files, wiki and
riskData hold the raw values the source setters receive (the source stores
parsed.files and parsed.wiki without further decoding). -/
structure ImportState where
  files : JsonVal
  wiki : JsonVal
  riskData : JsonVal
  wikiPath : List String

/-- handleImportContext (part_001 lines 403-423) applied to an already parsed
document: when the guard `parsed && Array.isArray(parsed.files) && typeof
parsed.wiki === "object"` holds, files and wiki are replaced, riskData is
replaced only when parsed.riskData is truthy, and the path resets to ROOT; the
Bool is true on this success path and false on the rejection path, where the
thrown error is caught and logged with the state untouched. -/
def handleImportContext (st : ImportState) (parsed : JsonVal) : ImportState × Bool :=
  if jsTruthy parsed && isArrayVal (getField parsed "files")
      && typeofIsObject (getField parsed "wiki") then
    ({ files := (getField parsed "files").getD JsonVal.null,
       wiki := (getField parsed "wiki").getD JsonVal.null,
       riskData :=
         if jsTruthyOpt (getField parsed "riskData") then
           (getField parsed "riskData").getD JsonVal.null
         else st.riskData,
       wikiPath := ["ROOT"] }, true)
  else (st, false)

/-- Concrete text for the chunker claims: ten letters, a newline exactly at
the cut position for chunk size ten, then one more letter. -/
def cexText : List Char := "aaaaaaaaaa\nb".toList

/-- First piece the chunker produces on cexText with chunk size ten. -/
def cexPiece : List Char := "aaaaaaaaaa\n".toList

/-- Chunk result with topics A and B and risk r1 (claim C5 example). -/
def chunkResA : ProcessedData :=
  { summary := "", topics := ["A", "B"],
    risks := [{ risk := "r1", category := "Operational" }], keyPoints := [], entities := [] }

/-- Chunk result with topics B and C and risk r2 (claim C5 example). -/
def chunkResB : ProcessedData :=
  { summary := "", topics := ["B", "C"],
    risks := [{ risk := "r2", category := "Legal" }], keyPoints := [], entities := [] }

/-- A small text file (ingested in a single call). -/
def smallFile : LocalFile :=
  { id := "f0", name := "small.txt", content := "hi".toList, type := "text/plain",
    size := 2, timestamp := 0, summary := none, processedData := none, isProcessing := none }

/-- Oracle where every model call throws. -/
def oracleAllThrows : Nat → ChunkCallResult := fun _ => ChunkCallResult.throws

/-- Oracle whose single response carries a duplicated topic (claim C6). -/
def oracleDupTopic : Nat → ChunkCallResult := fun _ =>
  ChunkCallResult.ok { summary := "s", topics := ["A", "A"], risks := [],
                       keyPoints := [], entities := [] }

/-- A file whose name contains the separator characters of the fingerprint. -/
def fileAB : LocalFile :=
  { id := "1", name := "a-1|b", content := [], type := "text/plain", size := 2,
    timestamp := 0, summary := none, processedData := none, isProcessing := none }

/-- A file named a of size one. -/
def fileA : LocalFile :=
  { id := "2", name := "a", content := [], type := "text/plain", size := 1,
    timestamp := 0, summary := none, processedData := none, isProcessing := none }

/-- A file named b of size two. -/
def fileB : LocalFile :=
  { id := "3", name := "b", content := [], type := "text/plain", size := 2,
    timestamp := 0, summary := none, processedData := none, isProcessing := none }

/-- First file set of the fingerprint-collision counterexample. -/
def collideFilesA : List LocalFile := [fileAB]

/-- Second file set of the fingerprint-collision counterexample: every name
and size differs from collideFilesA, yet the fingerprint string coincides. -/
def collideFilesB : List LocalFile := [fileA, fileB]

/-- Session state after a first send with collideFilesA. -/
def sessionStateA : GeminiState :=
  streamGeminiResponse { chatSession := none, currentFileContextHash := "", nextId := 0 }
    collideFilesA

/-- A session state holding a live handle whose stored fingerprint is the
hash of the empty file list. -/
def sessionStR : GeminiState :=
  { chatSession := some { id := 0, history := [], systemInstruction := "" },
    currentFileContextHash := "", nextId := 1 }

/-- A session state with no live handle. -/
def sessionStF : GeminiState :=
  { chatSession := none, currentFileContextHash := "x", nextId := 0 }

/-- A file with completed ingestion (claim C8). -/
def fileIngested : LocalFile :=
  { id := "4", name := "doc-a", content := [], type := "text/plain", size := 3,
    timestamp := 0, summary := none,
    processedData := some { summary := "S1", topics := [], risks := [], keyPoints := [],
                            entities := [] },
    isProcessing := none }

/-- A file whose ingestion has not completed (claim C8). -/
def filePending : LocalFile :=
  { id := "5", name := "doc-b", content := [], type := "text/plain", size := 4,
    timestamp := 0, summary := none, processedData := none, isProcessing := none }

/-- Initial wiki store holding only the ROOT node. -/
def wikiS0 : WikiCache := [("ROOT", emptyWikiNode)]

/-- Store after adding node A under ROOT. -/
def wikiS1 : WikiCache := handleWikiAddManualEntry wikiS0 "A" "defA" "ROOT"

/-- Store after adding node B under ROOT. -/
def wikiS2 : WikiCache := handleWikiAddManualEntry wikiS1 "B" "defB" "ROOT"

/-- Store after adding X under A. -/
def wikiS3 : WikiCache := handleWikiAddManualEntry wikiS2 "X" "defX" "A"

/-- Store after also adding X under B, while X is still listed under A. -/
def wikiS4 : WikiCache := handleWikiAddManualEntry wikiS3 "X" "defX2" "B"

/-- A wiki store for the move-rejection witness: A is the current parent and B
already lists an entry named X. -/
def wikiMoveW : WikiCache :=
  [("A", { entries := [{ term := "X", definition := "d", relatedContext := "c" }],
           content := "", files := [] }),
   ("B", { entries := [{ term := "X", definition := "d0", relatedContext := "c0" }],
           content := "", files := [] })]

/-- Application state before the import counterexample. -/
def importSt0 : ImportState :=
  { files := JsonVal.arr [JsonVal.str "old-file"],
    wiki := JsonVal.obj [("ROOT", JsonVal.obj [])],
    riskData := JsonVal.obj [("risks", JsonVal.arr [JsonVal.str "r-old"])],
    wikiPath := ["ROOT", "A"] }

/-- Imported snapshot whose wiki value is null and which carries no riskData
field. -/
def importDocNullWiki : JsonVal :=
  JsonVal.obj [("files", JsonVal.arr []), ("wiki", JsonVal.null)]

/-- A structurally valid snapshot with a truthy riskData field. -/
def importDocGood : JsonVal :=
  JsonVal.obj [("files", JsonVal.arr []), ("wiki", JsonVal.obj []),
               ("riskData", JsonVal.obj [("risks", JsonVal.arr [])])]

/-- Specification of jsLastIndexOf: a found index is at most the search
position and carries the searched character. -/
theorem jsLastIndexOf_spec (s : List Char) (c : Char) :
    ∀ pos j, jsLastIndexOf s c pos = some j → j ≤ pos ∧ s.get? j = some c := by
  intro pos
  induction pos with
  | zero =>
    intro j h
    rw [jsLastIndexOf] at h
    split at h
    · rename_i hc
      injection h with h1
      subst h1
      exact ⟨Nat.le_refl 0, hc⟩
    · exact absurd h (by simp)
  | succ p ih =>
    intro j h
    rw [jsLastIndexOf] at h
    split at h
    · rename_i hc
      injection h with h1
      subst h1
      exact ⟨Nat.le_refl _, hc⟩
    · have h2 := ih j h
      exact ⟨Nat.le_succ_of_le h2.1, h2.2⟩

/-- An accepted break point comes from the candidate and passes the 80
percent floor. -/
theorem breakAccept_some (csize i : Nat) (o : Option Nat) (j : Nat)
    (h : breakAccept csize i o = some j) :
    o = some j ∧ 5 * j > 5 * i + 4 * csize := by
  match o with
  | none => exact absurd h (by simp [breakAccept])
  | some k =>
    rw [breakAccept] at h
    split at h
    · rename_i hgt
      injection h with h1
      subst h1
      exact ⟨rfl, hgt⟩
    · exact absurd h (by simp)

/-- The hard cut point never exceeds i + csize. -/
theorem hardStop_le (text : List Char) (csize i : Nat) :
    hardStop text csize i ≤ i + csize :=
  Nat.min_le_left _ _

/-- Case analysis of nextEnd: either the hard cut point is used, or an
accepted newline or period break at index j ≤ cut point moved the end to
j + 1. -/
theorem nextEnd_cases (text : List Char) (csize i : Nat) :
    nextEnd text csize i = hardStop text csize i ∨
    (hardStop text csize i < text.length ∧
      ∃ j, j ≤ hardStop text csize i ∧ 5 * j > 5 * i + 4 * csize ∧
        (text.get? j = some '\n' ∨ text.get? j = some '.') ∧
        nextEnd text csize i = j + 1) := by
  rw [nextEnd]
  split
  · rename_i hlt
    split
    · rename_i ln hbr
      have h1 := breakAccept_some _ _ _ _ hbr
      have h2 := jsLastIndexOf_spec text '\n' _ ln h1.1
      exact Or.inr ⟨hlt, ln, h2.1, h1.2, Or.inl h2.2, rfl⟩
    · split
      · rename_i lp hbr
        have h1 := breakAccept_some _ _ _ _ hbr
        have h2 := jsLastIndexOf_spec text '.' _ lp h1.1
        exact Or.inr ⟨hlt, lp, h2.1, h1.2, Or.inr h2.2, rfl⟩
      · exact Or.inl rfl
  · exact Or.inl rfl

/-- The next chunk end never exceeds i + csize + 1. -/
theorem nextEnd_le (text : List Char) (csize i : Nat) :
    nextEnd text csize i ≤ i + csize + 1 := by
  have hh := hardStop_le text csize i
  rcases nextEnd_cases text csize i with h | ⟨_, j, hj1, _, _, hj4⟩
  · omega
  · omega

/-- For positive chunk size the loop cursor strictly advances. -/
theorem nextEnd_gt (text : List Char) (csize i : Nat) (hcs : 0 < csize)
    (hi : i < text.length) : i < nextEnd text csize i := by
  rcases nextEnd_cases text csize i with h | ⟨_, j, _, hj2, _, hj4⟩
  · rw [h]
    exact Nat.lt_min.mpr ⟨by omega, hi⟩
  · omega

/-- When a chunk overruns the size bound by one, the character exactly at the
hard cut position is a newline or a period. -/
theorem nextEnd_overflow_char (text : List Char) (csize i : Nat)
    (hi : i < text.length) (h : nextEnd text csize i = i + csize + 1) :
    text.get? (i + csize) = some '\n' ∨ text.get? (i + csize) = some '.' := by
  have hh := hardStop_le text csize i
  rcases nextEnd_cases text csize i with h0 | ⟨_, j, hj1, _, hj3, hj4⟩
  · omega
  · have hj : j = i + csize := by omega
    rw [← hj]
    exact hj3

/-- The loop on an exhausted cursor yields no chunks, at any fuel. -/
theorem chunkLoop_of_le (text : List Char) (csize fuel i : Nat)
    (h : text.length ≤ i) : chunkLoop text csize fuel i = [] := by
  cases fuel with
  | zero => rfl
  | succ f => rw [chunkLoop, if_neg (by omega)]

/-- Concatenating the loop output starting at i reproduces the suffix of the
text from i, whenever the fuel covers the remaining length. -/
theorem chunkLoop_flatten (text : List Char) (csize : Nat) (hcs : 0 < csize) :
    ∀ fuel i, text.length - i ≤ fuel →
      (chunkLoop text csize fuel i).flatten = text.drop i := by
  intro fuel
  induction fuel with
  | zero =>
    intro i hf
    rw [chunkLoop_of_le text csize 0 i (by omega)]
    simp [List.drop_eq_nil_of_le (by omega : text.length ≤ i)]
  | succ fuel ih =>
    intro i hf
    rw [chunkLoop]
    split
    · rename_i hi
      have hadv := nextEnd_gt text csize i hcs hi
      rw [List.flatten_cons, ih (nextEnd text csize i) (by omega)]
      have h1 : (text.drop i).drop (nextEnd text csize i - i) =
          text.drop (nextEnd text csize i) := by
        rw [List.drop_drop]
        congr 1
        omega
      rw [← h1, List.take_append_drop]
    · rename_i hi
      simp [List.drop_eq_nil_of_le (by omega : text.length ≤ i)]

/-- Claim C1: for every input text and every positive maxSize, concatenating
the pieces returned by chunkText in order reproduces the original text
exactly, character for character. -/
theorem chunkText_roundtrip (text : List Char) (csize : Nat) (h : 0 < csize) :
    (chunkText text csize).flatten = text := by
  rw [chunkText]
  split
  · simp
  · have h0 := chunkLoop_flatten text csize h text.length 0 (by omega)
    simpa using h0

/-- Witness for claim C1 at a concrete text and chunk size ten. -/
theorem chunkText_roundtrip_witness :
    0 < 10 ∧ (chunkText cexText 10).flatten = cexText :=
  ⟨by decide, chunkText_roundtrip cexText 10 (by decide)⟩

/-- Two sufficient fuels give the same loop output, for positive chunk
size: the fuel bound of the embedding is immaterial. -/
theorem chunkLoop_fuelIrrel (text : List Char) (csize : Nat) (hcs : 0 < csize) :
    ∀ fuel1 fuel2 i, text.length - i ≤ fuel1 → text.length - i ≤ fuel2 →
      chunkLoop text csize fuel1 i = chunkLoop text csize fuel2 i := by
  intro fuel1
  induction fuel1 with
  | zero =>
    intro fuel2 i h1 h2
    rw [chunkLoop_of_le text csize 0 i (by omega),
      chunkLoop_of_le text csize fuel2 i (by omega)]
  | succ f1 ih =>
    intro fuel2 i h1 h2
    by_cases hi : i < text.length
    · cases fuel2 with
      | zero => omega
      | succ f2 =>
        have hadv := nextEnd_gt text csize i hcs hi
        simp only [chunkLoop, if_pos hi]
        rw [ih f2 (nextEnd text csize i) (by omega) (by omega)]
    · rw [chunkLoop_of_le text csize _ i (by omega),
        chunkLoop_of_le text csize fuel2 i (by omega)]

/-- The loop emits at most one chunk per remaining character. -/
theorem chunkLoop_length (text : List Char) (csize : Nat) (hcs : 0 < csize) :
    ∀ fuel i, (chunkLoop text csize fuel i).length ≤ text.length - i := by
  intro fuel
  induction fuel with
  | zero => intro i; simp [chunkLoop]
  | succ fuel ih =>
    intro i
    rw [chunkLoop]
    split
    · rename_i hi
      have hadv := nextEnd_gt text csize i hcs hi
      have ht := ih (nextEnd text csize i)
      simp only [List.length_cons]
      omega
    · simp

/-- Claim C10: chunkText terminates on every input for positive chunk size;
each loop iteration strictly advances the cursor, the fuel bound of the
embedding is immaterial once it covers the text length, and the number of
pieces is finite, bounded by the text length plus one. -/
theorem chunkText_terminates (text : List Char) (csize : Nat) (h : 0 < csize) :
    (∀ i, i < text.length → i < nextEnd text csize i) ∧
    (∀ fuel1 fuel2 i, text.length - i ≤ fuel1 → text.length - i ≤ fuel2 →
      chunkLoop text csize fuel1 i = chunkLoop text csize fuel2 i) ∧
    (chunkText text csize).length ≤ text.length + 1 := by
  refine ⟨fun i hi => nextEnd_gt text csize i h hi,
    chunkLoop_fuelIrrel text csize h, ?_⟩
  rw [chunkText]
  split
  · simp only [List.length_singleton]
    omega
  · have h0 := chunkLoop_length text csize h text.length 0
    omega

/-- Witness for claim C10 at a concrete text and chunk size ten. -/
theorem chunkText_terminates_witness :
    0 < 10 ∧ (chunkText cexText 10).length ≤ cexText.length + 1 :=
  ⟨by decide, (chunkText_terminates cexText 10 (by decide)).2.2⟩

/-- Every chunk the loop emits has at most csize + 1 characters. -/
theorem chunkLoop_piece_le (text : List Char) (csize : Nat) :
    ∀ fuel i p, p ∈ chunkLoop text csize fuel i → p.length ≤ csize + 1 := by
  intro fuel
  induction fuel with
  | zero => intro i p hp; simp [chunkLoop] at hp
  | succ fuel ih =>
    intro i p hp
    rw [chunkLoop] at hp
    split at hp
    · rcases List.mem_cons.mp hp with h1 | h1
      · subst h1
        have h2 := nextEnd_le text csize i
        have h3 : ((text.drop i).take (nextEnd text csize i - i)).length ≤
            nextEnd text csize i - i := by
          rw [List.length_take]
          exact Nat.min_le_left _ _
        omega
      · exact ih _ p h1
    · simp at hp

/-- Claim C3 (amended): every piece returned by chunkText has length at most
maxSize + 1; the bound maxSize itself can be exceeded, by exactly one
character, only when the character at the hard cut position i + maxSize is a
newline or a period (the JS lastIndexOf search includes the cut position
itself, so a break found exactly there yields a piece of maxSize + 1
characters). -/
theorem chunk_size_bound (text : List Char) (csize : Nat) (h : 0 < csize) :
    (∀ p ∈ chunkText text csize, p.length ≤ csize + 1) ∧
    (∀ i, i < text.length → nextEnd text csize i = i + csize + 1 →
      text.get? (i + csize) = some '\n' ∨ text.get? (i + csize) = some '.') := by
  constructor
  · intro p hp
    rw [chunkText] at hp
    split at hp
    · rename_i hle
      have h1 := List.mem_singleton.mp hp
      subst h1
      omega
    · exact chunkLoop_piece_le text csize _ _ p hp
  · intro i hi hov
    exact nextEnd_overflow_char text csize i hi hov

/-- Counterexample to claim C3 as stated: on the twelve-character text of ten
letters, a newline at index ten and one letter, with maxSize ten, the first
(non-final) piece has eleven characters, exceeding maxSize although a safe
break point existed and was in fact taken (the newline at the cut position
passes the 80 percent floor: 5 * 10 > 5 * 0 + 4 * 10). -/
theorem chunk_size_bound_cex :
    chunkText cexText 10 = [cexPiece, ['b']] ∧
    cexPiece.length = 11 ∧
    (chunkText cexText 10).length = 2 ∧
    cexText.get? 10 = some '\n' ∧
    5 * 10 > 5 * 0 + 4 * 10 := by
  refine ⟨by decide, by decide, by decide, by decide, by decide⟩

/-- Witness for claim C3 at the concrete counterexample text. -/
theorem chunk_size_bound_witness :
    0 < 10 ∧ cexPiece.length ≤ 10 + 1 :=
  ⟨by decide, (chunk_size_bound cexText 10 (by decide)).1 cexPiece (by decide)⟩

/-- Membership in the deduplicated list agrees with the original. -/
theorem mem_jsSetDedup (a : String) : ∀ l : List String, a ∈ jsSetDedup l ↔ a ∈ l := by
  intro l
  induction l with
  | nil => simp [jsSetDedup]
  | cons x xs ih =>
    simp only [jsSetDedup, List.mem_cons, List.mem_filter, ih, decide_eq_true_eq]
    constructor
    · rintro (h | ⟨h1, _⟩)
      · exact Or.inl h
      · exact Or.inr h1
    · rintro (h | h)
      · exact Or.inl h
      · by_cases hax : a = x
        · exact Or.inl hax
        · exact Or.inr ⟨h, hax⟩

/-- The deduplicated list has no duplicates. -/
theorem nodup_jsSetDedup : ∀ l : List String, (jsSetDedup l).Nodup := by
  intro l
  induction l with
  | nil => simp [jsSetDedup]
  | cons x xs ih =>
    simp only [jsSetDedup, List.nodup_cons]
    refine ⟨?_, List.Nodup.filter _ ih⟩
    intro hmem
    have h1 := (List.mem_filter.mp hmem).2
    simp at h1

/-- Deduplication leaves a duplicate-free list unchanged. -/
theorem jsSetDedup_eq_self (l : List String) (h : l.Nodup) : jsSetDedup l = l := by
  induction l with
  | nil => rfl
  | cons x xs ih =>
    simp only [List.nodup_cons] at h
    rw [jsSetDedup, ih h.2]
    congr 1
    apply List.filter_eq_self.mpr
    intro a ha
    simp only [decide_eq_true_eq]
    intro hax
    exact h.1 (hax ▸ ha)

/-- Claim C5: the aggregation step merges topics and entities as
duplicate-eliminating sets and concatenates risks and key points as
sequences; in particular chunks with topics A,B and B,C merge to the
three-element set A,B,C while their risks r1 and r2 stay a two-element
sequence. -/
theorem merge_set_semantics :
    (∀ results : List ProcessedData,
      ((aggregateResults results).topics).Nodup ∧
      (∀ t, t ∈ (aggregateResults results).topics ↔
        t ∈ results.flatMap (fun r => r.topics)) ∧
      ((aggregateResults results).entities).Nodup ∧
      (∀ t, t ∈ (aggregateResults results).entities ↔
        t ∈ results.flatMap (fun r => r.entities)) ∧
      (aggregateResults results).risks = results.flatMap (fun r => r.risks) ∧
      (aggregateResults results).keyPoints = results.flatMap (fun r => r.keyPoints)) ∧
    (aggregateResults [chunkResA, chunkResB]).topics = ["A", "B", "C"] ∧
    (aggregateResults [chunkResA, chunkResB]).risks =
      [{ risk := "r1", category := "Operational" }, { risk := "r2", category := "Legal" }] := by
  refine ⟨fun results => ⟨nodup_jsSetDedup _, fun t => mem_jsSetDedup t _,
    nodup_jsSetDedup _, fun t => mem_jsSetDedup t _, rfl, rfl⟩, by decide, by decide⟩

/-- A replicated element whose image is empty flat-maps to the empty list. -/
theorem replicate_flatMap_nil {α β : Type} (a : α) (f : α → List β) (hf : f a = [])
    (k : Nat) : (List.replicate k a).flatMap f = [] := by
  induction k with
  | zero => rfl
  | succ k ih => simp [List.replicate_succ, hf, ih]

/-- Replicated empty summaries are filtered away entirely. -/
theorem replicate_map_filter_empty (k : Nat) :
    ((List.replicate k emptyProcessedData).map (fun r => r.summary)).filter
      (fun s => s ≠ "") = [] := by
  induction k with
  | zero => rfl
  | succ k ih => simpa [List.replicate_succ, emptyProcessedData] using ih

/-- Aggregating any number of empty per-chunk records yields the empty
record. -/
theorem aggregateResults_all_empty (k : Nat) :
    aggregateResults (List.replicate k emptyProcessedData) = emptyProcessedData := by
  unfold aggregateResults
  rw [replicate_flatMap_nil emptyProcessedData (fun r => r.topics) rfl k,
    replicate_flatMap_nil emptyProcessedData (fun r => r.risks) rfl k,
    replicate_flatMap_nil emptyProcessedData (fun r => r.keyPoints) rfl k,
    replicate_flatMap_nil emptyProcessedData (fun r => r.entities) rfl k,
    mergeSummaries, replicate_map_filter_empty k]
  rfl

/-- Claim C4: when every per-chunk model call throws, ingestion still returns
the structurally complete all-empty ProcessedData record; in the typed
embedding the record always carries all five fields and no exception escapes
because every failure branch of processChunk degrades to the empty record. -/
theorem ingestion_fail_soft (file : LocalFile) (oracle : Nat → ChunkCallResult)
    (h : ∀ n, oracle n = ChunkCallResult.throws) :
    processDocumentIngestion file oracle = emptyProcessedData := by
  rw [processDocumentIngestion]
  split
  · rw [h 0]
    rfl
  · have hmap : (List.range (chunkText file.content 50000).length).map
        (fun n => processChunk (oracle n)) =
        List.replicate (chunkText file.content 50000).length emptyProcessedData := by
      have h1 : (List.range (chunkText file.content 50000).length).map
          (fun n => processChunk (oracle n)) =
          (List.range (chunkText file.content 50000).length).map
          (fun _ => emptyProcessedData) :=
        List.map_congr_left (fun n _ => by rw [h n]; rfl)
      rw [h1, List.map_const', List.length_range]
    rw [hmap, aggregateResults_all_empty]

/-- Witness for claim C4 at a concrete file and oracle. -/
theorem ingestion_fail_soft_witness :
    processDocumentIngestion smallFile oracleAllThrows = emptyProcessedData :=
  ingestion_fail_soft smallFile oracleAllThrows (fun _ => rfl)

/-- Aggregating a one-element result list is the identity provided the chunk
result has duplicate-free topics and entities and a summary within the cap. -/
theorem aggregateResults_single (r : ProcessedData)
    (ht : r.topics.Nodup) (he : r.entities.Nodup) (hs : r.summary.length ≤ 2000) :
    aggregateResults [r] = r := by
  have hflatT : [r].flatMap (fun x => x.topics) = r.topics := by simp
  have hflatE : [r].flatMap (fun x => x.entities) = r.entities := by simp
  have hflatR : [r].flatMap (fun x => x.risks) = r.risks := by simp
  have hflatK : [r].flatMap (fun x => x.keyPoints) = r.keyPoints := by simp
  have hsum : mergeSummaries [r] = r.summary := by
    show String.intercalate "\n\n" (List.filter (fun s => decide (s ≠ "")) [r.summary]) =
      r.summary
    by_cases h0 : r.summary = ""
    · rw [h0]
      rfl
    · rw [List.filter_cons, if_pos (by simp [h0] : decide (r.summary ≠ "") = true)]
      rfl
  have hcap : capSummary r.summary = r.summary := by
    rw [capSummary, if_neg (by omega)]
  unfold aggregateResults
  rw [hsum, hcap, hflatT, hflatE, hflatR, hflatK,
    jsSetDedup_eq_self _ ht, jsSetDedup_eq_self _ he]

/-- Claim C6 (amended): for a document below the small-document threshold,
ingestion equals the one-element aggregation provided the single extraction
result has duplicate-free topics and entities and a summary of at most 2000
characters; in general the single-call path skips the deduplication and the
summary cap that aggregation would apply. -/
theorem single_chunk_aggregation (file : LocalFile) (oracle : Nat → ChunkCallResult)
    (hsmall : file.content.length < 60000)
    (ht : (processChunk (oracle 0)).topics.Nodup)
    (he : (processChunk (oracle 0)).entities.Nodup)
    (hs : (processChunk (oracle 0)).summary.length ≤ 2000) :
    processDocumentIngestion file oracle = aggregateResults [processChunk (oracle 0)] := by
  rw [processDocumentIngestion, if_pos (Or.inr hsmall),
    aggregateResults_single _ ht he hs]

/-- Witness for claim C6 at a concrete file and oracle. -/
theorem single_chunk_aggregation_witness :
    processDocumentIngestion smallFile oracleAllThrows =
      aggregateResults [processChunk (oracleAllThrows 0)] :=
  single_chunk_aggregation smallFile oracleAllThrows (by decide) (by decide)
    (by decide) (by decide)

/-- Counterexample to claim C6 as stated: a small document whose single
extraction response repeats a topic ingests to a record with the duplicate
kept, while the one-element aggregation deduplicates it, so the two results
differ. -/
theorem single_chunk_aggregation_cex :
    processDocumentIngestion smallFile oracleDupTopic ≠
      aggregateResults [processChunk (oracleDupTopic 0)] ∧
    (processDocumentIngestion smallFile oracleDupTopic).topics = ["A", "A"] ∧
    (aggregateResults [processChunk (oracleDupTopic 0)]).topics = ["A"] := by
  refine ⟨by decide, by decide, by decide⟩

/-- Counterexample to claim C2: starting from a store that satisfies the
single-parent invariant and using only the add-manual-entry operation, the
term X becomes listed under both parent A and parent B, and the second
insertion is not rejected (the store changes).  handleWikiAddManualEntry
performs no duplicate check. -/
theorem wiki_single_parent_cex :
    ((cacheLookup wikiS4 "A").getD emptyWikiNode).entries.any
      (fun e => e.term = "X") = true ∧
    ((cacheLookup wikiS4 "B").getD emptyWikiNode).entries.any
      (fun e => e.term = "X") = true ∧
    wikiS4 ≠ wikiS3 := by
  refine ⟨by decide, by decide, by decide⟩

/-- Claim C2 (amended): handleWikiMoveNode rejects a move whose target parent
already lists an entry with the same term, leaving the store unchanged;
handleWikiAddManualEntry performs no such check, so only the move operation
upholds the duplicate-prevention invariant. -/
theorem wiki_move_duplicate_rejected (prev : WikiCache)
    (currentParent term definition newParent : String) (node : WikiNodeData)
    (hne : currentParent ≠ newParent)
    (hcur : cacheLookup prev currentParent = some node)
    (hdup : ((cacheLookup prev newParent).getD emptyWikiNode).entries.any
      (fun e => e.term = term) = true) :
    handleWikiMoveNode prev currentParent term definition newParent = some prev := by
  rw [handleWikiMoveNode, if_neg hne, hcur]
  simp only [if_pos hdup]

/-- Witness for claim C2 at a concrete store: moving X to B is rejected
because B already lists an entry named X. -/
theorem wiki_move_duplicate_rejected_witness :
    handleWikiMoveNode wikiMoveW "A" "X" "dX" "B" = some wikiMoveW :=
  wiki_move_duplicate_rejected wikiMoveW "A" "X" "dX" "B"
    { entries := [{ term := "X", definition := "d", relatedContext := "c" }],
      content := "", files := [] }
    (by decide) (by decide) (by decide)

/-- Claim C7 (amended): a send with an existing session whose stored
fingerprint string equals the fingerprint of the given files reuses the state
unchanged (same handle, no re-seeding); with no session or a differing
fingerprint string, a fresh handle is created, seeded with the file history
and system instruction, and the new fingerprint is stored.  The fingerprint
is the joined name-size string, which distinct file lists can share. -/
theorem session_reuse (st : GeminiState) (files : List LocalFile) :
    (st.chatSession.isSome = true →
      generateFileHash files = st.currentFileContextHash →
      streamGeminiResponse st files = st) ∧
    ((st.chatSession = none ∨ generateFileHash files ≠ st.currentFileContextHash) →
      streamGeminiResponse st files =
        { chatSession := some { id := st.nextId, history := sessionHistory files,
                                systemInstruction := getSystemInstruction files },
          currentFileContextHash := generateFileHash files,
          nextId := st.nextId + 1 }) := by
  constructor
  · intro h1 h2
    obtain ⟨v, hv⟩ := Option.isSome_iff_exists.mp h1
    rw [streamGeminiResponse, hv, h2]
    simp
  · intro h
    rw [streamGeminiResponse]
    rcases h with h | h
    · rw [h]
      simp
    · have hb : (generateFileHash files != st.currentFileContextHash) = true := by
        simpa [bne_iff_ne] using h
      rw [hb]
      simp

/-- Witness for claim C7: a matching fingerprint reuses the cached state and
a missing session creates a fresh seeded one. -/
theorem session_reuse_witness :
    streamGeminiResponse sessionStR [] = sessionStR ∧
    streamGeminiResponse sessionStF [] =
      { chatSession := some { id := 0, history := sessionHistory [],
                              systemInstruction := getSystemInstruction [] },
        currentFileContextHash := generateFileHash [], nextId := 1 } :=
  ⟨(session_reuse sessionStR []).1 rfl rfl,
   (session_reuse sessionStF []).2 (Or.inl rfl)⟩

set_option maxRecDepth 8000 in
/-- Counterexample to claim C7 as stated: two file sets in which every file
name and size differ produce equal fingerprint strings, so the second send
reuses the old session instead of constructing a new one. -/
theorem session_reuse_cex :
    collideFilesA.map (fun f => (f.name, f.size)) ≠
      collideFilesB.map (fun f => (f.name, f.size)) ∧
    generateFileHash collideFilesA = generateFileHash collideFilesB ∧
    sessionStateA.chatSession.isSome = true ∧
    streamGeminiResponse sessionStateA collideFilesB = sessionStateA := by
  refine ⟨by decide, by decide, by decide, by decide⟩

/-- Claim C8 (amended): the system instruction of a fresh session is built
from condensed per-file summaries when at least one active file has completed
ingestion (listing only those files), and from the generic rules otherwise. -/
theorem system_instruction_modes (files : List LocalFile) :
    ((∃ f ∈ files, f.processedData.isSome) →
      getSystemInstruction files =
        baseInstruction ++
          summaryInstruction (files.filter (fun f => f.processedData.isSome))) ∧
    ((∀ f ∈ files, f.processedData = none) →
      getSystemInstruction files = baseInstruction ++ genericRules) := by
  constructor
  · rintro ⟨f, hf, hsome⟩
    have hmem : f ∈ files.filter (fun f => f.processedData.isSome) :=
      List.mem_filter.mpr ⟨hf, hsome⟩
    have hpos : 0 < (files.filter (fun f => f.processedData.isSome)).length :=
      List.length_pos.mpr (List.ne_nil_of_mem hmem)
    rw [getSystemInstruction, if_pos hpos]
  · intro hall
    have hnil : files.filter (fun f => f.processedData.isSome) = [] := by
      rw [List.filter_eq_nil_iff]
      intro f hf
      rw [hall f hf]
      simp
    rw [getSystemInstruction, hnil]
    rfl

/-- Witness for claim C8: one ingested file selects the summary form and an
empty file list selects the generic rules. -/
theorem system_instruction_modes_witness :
    getSystemInstruction [fileIngested] =
      baseInstruction ++
        summaryInstruction ([fileIngested].filter (fun f => f.processedData.isSome)) ∧
    getSystemInstruction [] = baseInstruction ++ genericRules :=
  ⟨(system_instruction_modes [fileIngested]).1 ⟨fileIngested, by simp, rfl⟩,
   (system_instruction_modes []).2 (by simp)⟩

/-- Counterexample to claim C8: with one ingested and one pending file not
every active file has completed ingestion, yet the instruction is not the
generic one (the source switches on at least one processed file, not all). -/
theorem system_instruction_cex :
    filePending.processedData = none ∧
    fileIngested.processedData.isSome = true ∧
    getSystemInstruction [fileIngested, filePending] ≠ baseInstruction ++ genericRules := by
  refine ⟨rfl, rfl, by decide⟩

/-- Claim C9 (amended): snapshot import leaves the whole state untouched on
the rejection path; on the success path it replaces files and wiki from the
snapshot, resets the navigation path to ROOT, and replaces the risk register
only when the snapshot carries a truthy riskData value, retaining the
previous register otherwise.  The guard accepts exactly when the parsed
document is truthy, its files value is an array, and its wiki value has
JavaScript type object, which includes null. -/
theorem import_context_behavior (st : ImportState) (parsed : JsonVal) :
    ((handleImportContext st parsed).2 = false → (handleImportContext st parsed).1 = st) ∧
    ((handleImportContext st parsed).2 = true →
      (handleImportContext st parsed).1.files = (getField parsed "files").getD JsonVal.null ∧
      (handleImportContext st parsed).1.wiki = (getField parsed "wiki").getD JsonVal.null ∧
      (handleImportContext st parsed).1.wikiPath = ["ROOT"] ∧
      (jsTruthyOpt (getField parsed "riskData") = true →
        (handleImportContext st parsed).1.riskData =
          (getField parsed "riskData").getD JsonVal.null) ∧
      (jsTruthyOpt (getField parsed "riskData") = false →
        (handleImportContext st parsed).1.riskData = st.riskData)) := by
  by_cases hg : (jsTruthy parsed && isArrayVal (getField parsed "files")
      && typeofIsObject (getField parsed "wiki")) = true
  · constructor
    · intro hfalse
      rw [handleImportContext, if_pos hg] at hfalse
      simp at hfalse
    · intro _
      refine ⟨?_, ?_, ?_, ?_, ?_⟩
      · rw [handleImportContext, if_pos hg]
      · rw [handleImportContext, if_pos hg]
      · rw [handleImportContext, if_pos hg]
      · intro hr
        rw [handleImportContext, if_pos hg]
        show (if jsTruthyOpt (getField parsed "riskData") = true then
          (getField parsed "riskData").getD JsonVal.null else st.riskData) = _
        rw [if_pos hr]
      · intro hr
        rw [handleImportContext, if_pos hg]
        show (if jsTruthyOpt (getField parsed "riskData") = true then
          (getField parsed "riskData").getD JsonVal.null else st.riskData) = _
        rw [if_neg (by simp [hr])]
  · constructor
    · intro _
      rw [handleImportContext, if_neg hg]
    · intro htrue
      rw [handleImportContext, if_neg hg] at htrue
      simp at htrue

/-- Witness for claim C9: a rejected document leaves the state unchanged and
an accepted one resets the path and replaces the risk register. -/
theorem import_context_behavior_witness :
    (handleImportContext importSt0 JsonVal.null).1 = importSt0 ∧
    (handleImportContext importSt0 importDocGood).1.wikiPath = ["ROOT"] ∧
    (handleImportContext importSt0 importDocGood).1.riskData =
      (getField importDocGood "riskData").getD JsonVal.null :=
  ⟨(import_context_behavior importSt0 JsonVal.null).1 rfl,
   ((import_context_behavior importSt0 importDocGood).2 rfl).2.2.1,
   ((import_context_behavior importSt0 importDocGood).2 rfl).2.2.2.1 rfl⟩

/-- Counterexample to claim C9 as stated: a snapshot whose wiki value is null
(not an object) and which carries no riskData field is accepted, and the
resulting state mixes the snapshot files with the previous risk register, so
the replacement is not all-or-nothing. -/
theorem import_context_cex :
    (handleImportContext importSt0 importDocNullWiki).2 = true ∧
    getField importDocNullWiki "wiki" = some JsonVal.null ∧
    (handleImportContext importSt0 importDocNullWiki).1.riskData = importSt0.riskData ∧
    (handleImportContext importSt0 importDocNullWiki).1.files ≠ importSt0.files := by
  refine ⟨rfl, rfl, rfl, ?_⟩
  show JsonVal.arr [] ≠ JsonVal.arr [JsonVal.str "old-file"]
  simp

end SDMKMS
